import Mathlib

/-!
Verification development for the agent-harness client orchestrator
(`src/client/talk2mcp.py`): the directive parser, the tool-schema
extractor, the argument coercer, and the agent control loop are embedded
as executable Lean definitions, and the specified properties are proved
about them.
-/

namespace Talk2MCP

/-! ### Python string primitives

The client code relies on CPython `str.strip`, `str.startswith`,
`str.split`, `str.splitlines`, and the numeric constructors `int`/`float`.
These are modelled here over `List Char` / `String`.
-/

/-- Characters removed by CPython `str.strip()` (the ASCII whitespace set;
the parser's inputs are protocol lines, for which this set is exact). -/
def isPyWs (c : Char) : Bool :=
  c = ' ' || c = '\t' || c = '\n' || c = '\r' || c = '\x0b' || c = '\x0c'

/-- Python `str.strip()` on a character list: drop whitespace from both ends. -/
def pyStripList (cs : List Char) : List Char :=
  ((cs.dropWhile isPyWs).reverse.dropWhile isPyWs).reverse

/-- Python `str.strip()` on a string. -/
def pyStrip (s : String) : String :=
  ⟨pyStripList s.data⟩

/-- Python `s.startswith(pre)`. -/
def pyStartsWith (s pre : String) : Bool :=
  pre.data.isPrefixOf s.data

/-- Python `s.split(sep)` for a one-character separator, CPython semantics:
the result always has at least one element, empty segments included. -/
def pySplitChar (sep : Char) : List Char → List (List Char)
  | [] => [[]]
  | c :: cs =>
    let rest := pySplitChar sep cs
    if c = sep then
      [] :: rest
    else
      match rest with
      | [] => [[c]]
      | seg :: segs => (c :: seg) :: segs

/-- Python `s.split(sep)` on strings. -/
def pySplit (s : String) (sep : Char) : List String :=
  (pySplitChar sep s.data).map (fun cs => ⟨cs⟩)

/-- Line-boundary characters of CPython `str.splitlines` (ASCII subset). -/
def isPyLineBreak (c : Char) : Bool :=
  c = '\n' || c = '\r' || c = '\x0b' || c = '\x0c' ||
  c = '\x1c' || c = '\x1d' || c = '\x1e' || c = '\x85'

/-- The turn's canonical line: `raw_text.splitlines()[0] if raw_text else ""`,
the first line of a reply, or the empty string when the reply is empty
(`talk2mcp.py` line 278). -/
def pyFirstLine (s : String) : String :=
  if s = "" then "" else ⟨s.data.takeWhile (fun c => !isPyLineBreak c)⟩

/-- Decimal digit run to a natural number. -/
def digitsToNat (ds : List Char) : ℕ :=
  ds.foldl (fun a c => a * 10 + (c.toNat - '0'.toNat)) 0

/-- Optional leading sign. Returns the sign as an integer and the rest. -/
def readSign : List Char → ℤ × List Char
  | '+' :: r => (1, r)
  | '-' :: r => (-1, r)
  | r => (1, r)

/-- CPython `int(value)` on base-10 literals: strip whitespace, optional
sign, then a non-empty digit run. -/
def pyInt (value : String) : Except String ℤ :=
  let cs := pyStripList value.data
  let sr := readSign cs
  if sr.2.isEmpty || !sr.2.all Char.isDigit then
    .error "invalid literal for int() with base 10"
  else
    .ok (sr.1 * (digitsToNat sr.2 : ℤ))

/-- Mantissa of a float literal: `digits`, `digits.digits`, `.digits` or
`digits.` (at least one digit overall). Returns its value as an
unnormalized numerator/denominator pair and the unconsumed rest. -/
def parseMantissa (cs : List Char) : Option ((ℕ × ℕ) × List Char) :=
  let intPart := cs.takeWhile Char.isDigit
  let rest1 := cs.dropWhile Char.isDigit
  match rest1 with
  | '.' :: r =>
    let fracPart := r.takeWhile Char.isDigit
    let rest2 := r.dropWhile Char.isDigit
    if intPart.isEmpty && fracPart.isEmpty then
      none
    else
      some ((digitsToNat intPart * 10 ^ fracPart.length + digitsToNat fracPart,
        10 ^ fracPart.length), rest2)
  | _ =>
    if intPart.isEmpty then none else some ((digitsToNat intPart, 1), rest1)

/-- CPython `float(value)` on finite decimal literals (optional sign,
mantissa, optional exponent), with the exact rational value: the literals
reaching the coercer are short protocol arguments, for which the rational
value determines `float.is_integer` and equality. -/
def pyFloat (value : String) : Except String ℚ :=
  let cs := pyStripList value.data
  let sr := readSign cs
  match parseMantissa sr.2 with
  | none => .error "could not convert string to float"
  | some m =>
    let num : ℤ := sr.1 * (m.1.1 : ℤ)
    let den : ℕ := m.1.2
    match m.2 with
    | [] => .ok (mkRat num den)
    | e :: r =>
      if e = 'e' || e = 'E' then
        let er := readSign r
        if er.2.isEmpty || !er.2.all Char.isDigit then
          .error "could not convert string to float"
        else
          let ex : ℤ := er.1 * (digitsToNat er.2 : ℤ)
          if 0 ≤ ex then .ok (mkRat (num * (10 : ℤ) ^ ex.toNat) den)
          else .ok (mkRat num (den * 10 ^ ex.natAbs))
      else
        .error "could not convert string to float"

/-! ### Directive parser (`parse_agent_line`, `talk2mcp.py` lines 52-73) -/

def FUNCTION_CALL_PREFIX : String := "FUNCTION_CALL:"

def FINAL_ANSWER_LINE : String := "FINAL_ANSWER: [done]"

/-- The `AgentDirective` dataclass (`talk2mcp.py` lines 45-49). -/
structure AgentDirective where
  kind : String
  name : Option String := none
  arguments : Option (List String) := none
deriving DecidableEq, Repr

/-- Parse a FUNCTION_CALL or FINAL_ANSWER line from the LLM
(`parse_agent_line`); `ValueError` is modelled as `Except.error`. -/
def parse_agent_line (line : String) : Except String AgentDirective :=
  if line = "" then
    .error "Empty response line from agent"
  else
    let stripped := pyStrip line
    if pyStartsWith stripped FUNCTION_CALL_PREFIX then
      let payload := pyStrip ⟨stripped.data.drop FUNCTION_CALL_PREFIX.length⟩
      if payload = "" then
        .error "FUNCTION_CALL missing payload"
      else
        let parts := pySplit payload '|'
        let name := pyStrip (parts.headD "")
        let args := (parts.drop 1).map pyStrip
        if name = "" then
          .error "FUNCTION_CALL missing function name"
        else
          .ok { kind := "function_call", name := some name, arguments := some args }
    else if stripped = FINAL_ANSWER_LINE then
      .ok { kind := "final_answer" }
    else
      .error ("Unrecognized agent directive: " ++ line)

instance exceptDecEq {ε α : Type} [DecidableEq ε] [DecidableEq α] :
    DecidableEq (Except ε α) := fun a b =>
  match a, b with
  | .error e, .error f => decidable_of_iff (e = f) (by simp)
  | .error _, .ok _ => isFalse (by simp)
  | .ok _, .error _ => isFalse (by simp)
  | .ok x, .ok y => decidable_of_iff (x = y) (by simp)

/-- True iff the parse failed (a `ValueError` — the spec's
`ProtocolError`). -/
def isProtocolError (r : Except String AgentDirective) : Bool :=
  match r with
  | .error _ => true
  | .ok _ => false

/-! ### Argument coercer (`_convert_argument`, `talk2mcp.py` lines 144-152) -/

/-- A Python value produced by argument coercion: an `int`, a `float`
(kept as its exact rational value), or a pass-through `str`. -/
inductive PyValue where
  | vInt (n : ℤ)
  | vFloat (q : ℚ)
  | vStr (s : String)
deriving DecidableEq, Repr

/-- Model of `_convert_argument(value, schema_type)`: `int(value)` for
`"integer"`, `float(value)` narrowed to `int` when integer-valued for
`"number"`, the raw string otherwise; `ValueError` is modelled as
`Except.error`. -/
def _convert_argument (value : String) (schema_type : String) : Except String PyValue :=
  if schema_type = "integer" then
    (pyInt value).map PyValue.vInt
  else if schema_type = "number" then
    (pyFloat value).map (fun q => if q.den = 1 then PyValue.vInt q.num else PyValue.vFloat q)
  else
    .ok (PyValue.vStr value)

/-- True iff the coercion failed (a `ValueError` — the spec's
`ArgumentError`). -/
def isArgumentError (r : Except String PyValue) : Bool :=
  match r with
  | .error _ => true
  | .ok _ => false

/-! ### Schema extractor (`_extract_schema`, `talk2mcp.py` lines 112-125) -/

/-- The relevant part of a tool descriptor's `inputSchema` dict:
`properties` is the insertion-ordered dict mapping a parameter name to
its optional `"type"` field, `required` the JSON array of required
parameter names. -/
structure ToolInputSchema where
  properties : List (String × Option String)
  required : List String
deriving Repr

/-- Python `properties.get(name)`: first binding for `name`, if any. -/
def lookupProp (props : List (String × Option String)) (n : String) :
    Option (Option String) :=
  (props.find? (fun p => p.1 = n)).map Prod.snd

/-- Model of `_extract_schema`: required parameters first (in
`required`-array order, with `properties.get(name, {}).get("type",
"string")`), then the remaining properties in declaration order. -/
def _extract_schema (t : ToolInputSchema) : List (String × String) :=
  (t.required.map (fun n => (n, ((lookupProp t.properties n).getD none).getD "string"))) ++
    ((t.properties.filter (fun p => !(t.required.contains p.1))).map
      (fun p => (p.1, p.2.getD "string")))

/-! ### Agent loop (`run_agent`, `talk2mcp.py` lines 240-329)

The loop body (lines 271-327) is embedded as a step function
`runIteration` plus a fuel recursion `runLoop`. The external
collaborators — the model backend and the tool provider — are
parameters of the embedding: `modelReply` gives the extracted text of
the model response as a function of the history sent to it, and
`toolResult` gives the text extracted from the tool call response.
-/

/-- One entry of the conversation history
(`{"role": ..., "parts": [{"text": ...}]}`). -/
structure Turn where
  role : String
  text : String
deriving DecidableEq, Repr

/-- The external collaborators and the session-start tool schema table. -/
structure Env where
  modelReply : List Turn → String
  toolResult : String → List (String × PyValue) → String
  toolSchemas : List (String × List (String × String))

/-- Python `tool_schemas.get(tool_name, [])` (`talk2mcp.py` line 296). -/
def schemaFor (env : Env) (toolName : String) : List (String × String) :=
  ((env.toolSchemas.find? (fun p => p.1 = toolName)).map Prod.snd).getD []

/-- The `(key, expected_type)` chosen for position `idx`
(`talk2mcp.py` lines 304-307): the schema entry when `idx` is within the
schema, otherwise the synthesized name `arg<idx>` typed `"string"`. -/
def keyTypeAt (schema : List (String × String)) (idx : ℕ) : String × String :=
  match schema.get? idx with
  | some kt => kt
  | none => ("arg" ++ toString idx, "string")

/-- One argument's coerced value (`talk2mcp.py` lines 308-314): the
coercion result, or the raw string itself when coercion raises. -/
def coerceOne (raw ty : String) : PyValue :=
  match _convert_argument raw ty with
  | .ok v => v
  | .error _ => PyValue.vStr raw

/-- The sequence of `arguments[key] = value` assignments performed by the
coercion loop (`talk2mcp.py` lines 302-314), in positional order. -/
def buildArguments (schema : List (String × String)) (raws : List String) :
    List (String × PyValue) :=
  raws.enum.map (fun p => ((keyTypeAt schema p.1).1, coerceOne p.2 (keyTypeAt schema p.1).2))

/-- Python-dict assignment: overwrite in place if the key exists,
otherwise append. -/
def dictInsert (d : List (String × PyValue)) (k : String) (v : PyValue) :
    List (String × PyValue) :=
  if d.any (fun p => p.1 = k) then
    d.map (fun p => if p.1 = k then (k, v) else p)
  else
    d ++ [(k, v)]

/-- The dict built by the assignment sequence. -/
def dictOf (assigns : List (String × PyValue)) : List (String × PyValue) :=
  assigns.foldl (fun d p => dictInsert d p.1 p.2) []

/-- What one loop body execution did after appending its two history
entries: protocol-error feedback, the final-answer break, or a tool call
followed by `TOOL_RESULT` feedback. -/
inductive IterOutcome where
  | protocolError (feedback : String)
  | finalAnswer
  | toolCall (name : String) (args : List (String × PyValue)) (feedback : String)
deriving DecidableEq, Repr

/-- The corrective feedback synthesized on a parse failure
(`talk2mcp.py` line 285). -/
def protocolFeedback (e : String) : String :=
  "Unrecognized response (" ++ e ++ "). Please follow the protocol."

/-- One execution of the loop body (`talk2mcp.py` lines 272-324), given
the history so far and the pending outbound message: returns the updated
history and the outcome. -/
def runIteration (env : Env) (history : List Turn) (nextMessage : String) :
    List Turn × IterOutcome :=
  let h1 := history ++ [⟨"user", nextMessage⟩]
  let line := pyFirstLine (env.modelReply h1)
  let h2 := h1 ++ [⟨"model", line⟩]
  match parse_agent_line line with
  | .error e =>
    (h2, .protocolError (protocolFeedback e))
  | .ok d =>
    if d.kind = "final_answer" then
      (h2, .finalAnswer)
    else
      let toolName := d.name.getD ""
      let raws := d.arguments.getD []
      let assigns := buildArguments (schemaFor env toolName) raws
      let result := env.toolResult toolName (dictOf assigns)
      (h2, .toolCall toolName assigns ("TOOL_RESULT " ++ toolName ++ ": " ++ result))

/-- Terminal state of a run. -/
inductive AgentState where
  | DONE
  | EXHAUSTED
deriving DecidableEq, Repr

/-- Result of a run: terminal state, the outcomes of the executed
iterations in order, and the final history. -/
structure RunResult where
  state : AgentState
  outcomes : List IterOutcome
  history : List Turn

/-- The `for iteration in range(1, max_iterations + 1)` loop with its
`else` clause (`talk2mcp.py` lines 271-327): fuel counts the remaining
iterations; exhausting it without a final answer ends in `EXHAUSTED`,
the final-answer directive breaks out in `DONE`. -/
def runLoop (env : Env) : ℕ → List Turn → String → RunResult
  | 0, h, _ => ⟨.EXHAUSTED, [], h⟩
  | n + 1, h, msg =>
    match runIteration env h msg with
    | (h2, .finalAnswer) => ⟨.DONE, [.finalAnswer], h2⟩
    | (h2, .protocolError fb) =>
      let r := runLoop env n h2 fb
      ⟨r.state, .protocolError fb :: r.outcomes, r.history⟩
    | (h2, .toolCall nm args fb) =>
      let r := runLoop env n h2 fb
      ⟨r.state, .toolCall nm args fb :: r.outcomes, r.history⟩

/-- Model of `run_agent(query, max_iterations, ...)`: the agent loop started
on an empty history with the query as the first outbound message. -/
def run_agent (env : Env) (query : String) (max_iterations : ℕ) : RunResult :=
  runLoop env max_iterations [] query

/-- A session whose model always replies with a line outside the protocol
grammar (spec scenario B/D). -/
def offProtocolEnv : Env :=
  { modelReply := fun _ => "SAY: hello"
    toolResult := fun _ _ => "ok"
    toolSchemas := [] }

/-- A session whose model calls the `add` tool with a non-numeric first
argument. -/
def badArgEnv : Env :=
  { modelReply := fun _ => "FUNCTION_CALL: add|abc|2"
    toolResult := fun _ _ => "ok"
    toolSchemas := [("add", [("x", "integer"), ("y", "integer")])] }

/-- The payload of a function-call line:
`stripped[len(FUNCTION_CALL_PREFIX):].strip()` (`talk2mcp.py` line 60). -/
def fcPayload (line : String) : String :=
  pyStrip ⟨(pyStrip line).data.drop FUNCTION_CALL_PREFIX.length⟩

/-- The pipe-delimited segments of a function-call payload
(`payload.split("|")`, `talk2mcp.py` line 63). -/
def fcSegments (line : String) : List String :=
  pySplit (fcPayload line) '|'

/-! ## Theorems -/

/-- C4: `parse` fails with a `ProtocolError` on the empty string, a
whitespace-only string, the bare marker `"FUNCTION_CALL:"`, and a
function-call line whose first pipe-segment is empty. -/
theorem parse_rejects_malformed :
    isProtocolError (parse_agent_line "") = true ∧
    isProtocolError (parse_agent_line "   ") = true ∧
    isProtocolError (parse_agent_line "FUNCTION_CALL:") = true ∧
    isProtocolError (parse_agent_line "FUNCTION_CALL: |a|b") = true := by
  decide

/-- Counterexample to C3 as stated: `"FUNCTION_CALL: |a|b"` is a
non-empty line that after trimming begins with the function-call marker
and has a non-empty payload, yet `parse` raises its parse error instead
of returning a `function_call` directive with the empty first segment as
name. -/
theorem parse_function_call_claim_cex :
    ("FUNCTION_CALL: |a|b" : String) ≠ "" ∧
    pyStartsWith (pyStrip "FUNCTION_CALL: |a|b") FUNCTION_CALL_PREFIX = true ∧
    fcPayload "FUNCTION_CALL: |a|b" ≠ "" ∧
    parse_agent_line "FUNCTION_CALL: |a|b" =
      .error "FUNCTION_CALL missing function name" := by
  refine ⟨by decide, by decide, by decide, by decide⟩

/-- C3 (amended): for every non-empty line that after trimming begins
with the literal `FUNCTION_CALL:` marker, has a non-empty payload after
the marker, and whose first pipe-segment is non-empty after trimming,
`parse` returns a `function_call` directive whose name is the first
pipe-segment (trimmed) and whose arguments are the remaining segments
(each trimmed, not unescaped), in original order. -/
theorem parse_function_call_amended (line : String)
    (h0 : line ≠ "")
    (h1 : pyStartsWith (pyStrip line) FUNCTION_CALL_PREFIX = true)
    (h2 : fcPayload line ≠ "")
    (h3 : pyStrip ((fcSegments line).headD "") ≠ "") :
    parse_agent_line line =
      .ok { kind := "function_call",
            name := some (pyStrip ((fcSegments line).headD "")),
            arguments := some (((fcSegments line).drop 1).map pyStrip) } := by
  have hD : ∀ (l : List String) (d : String), l.headD d = l.head?.getD d := by
    intro l d
    cases l <;> rfl
  simp only [fcPayload, fcSegments, hD] at h2 h3
  simp [parse_agent_line, h0, h1, h2, h3, fcPayload, fcSegments, hD]

/-- Witness for C3 (amended) at a concrete four-argument call line. -/
theorem parse_function_call_amended_witness :
    parse_agent_line "FUNCTION_CALL: draw_rectangle|100|200|300|400" =
      .ok { kind := "function_call", name := some "draw_rectangle",
            arguments := some ["100", "200", "300", "400"] } :=
  parse_function_call_amended "FUNCTION_CALL: draw_rectangle|100|200|300|400"
    (by decide) (by decide) (by decide) (by decide)

/-- C5: any line trimming to exactly `"FINAL_ANSWER: [done]"` parses to
the final-answer directive with no name and no arguments; any line that
does not trim to that literal (different casing, trailing content) and is
not a function-call line fails with a `ProtocolError`. -/
theorem parse_final_answer_strict :
    (∀ line : String, pyStrip line = FINAL_ANSWER_LINE →
      parse_agent_line line = .ok { kind := "final_answer", name := none, arguments := none }) ∧
    (∀ line : String, pyStrip line ≠ FINAL_ANSWER_LINE →
      pyStartsWith (pyStrip line) FUNCTION_CALL_PREFIX = false →
      isProtocolError (parse_agent_line line) = true) := by
  constructor
  · intro line hline
    have hne : line ≠ "" := by
      intro h0
      rw [h0] at hline
      exact absurd hline (by decide)
    have hsw : pyStartsWith FINAL_ANSWER_LINE FUNCTION_CALL_PREFIX = false := by decide
    simp [parse_agent_line, hne, hline, hsw]
  · intro line h1 h2
    by_cases h0 : line = ""
    · simp [parse_agent_line, h0, isProtocolError]
    · simp [parse_agent_line, h0, h1, h2, isProtocolError]

/-- Witness for C5: the canonical literal with surrounding whitespace
parses to the final-answer directive, and a line with trailing content
after the literal fails. -/
theorem parse_final_answer_strict_witness :
    parse_agent_line "  FINAL_ANSWER: [done]  " =
      .ok { kind := "final_answer", name := none, arguments := none } ∧
    isProtocolError (parse_agent_line "FINAL_ANSWER: [done] thanks") = true :=
  ⟨parse_final_answer_strict.1 "  FINAL_ANSWER: [done]  " (by decide),
    parse_final_answer_strict.2 "FINAL_ANSWER: [done] thanks" (by decide) (by decide)⟩

/-- C6: the coercer parses `"42"` as the integer 42; narrows `"3.0"` to
the integer 3; keeps `"3.5"` as the rational 7/2; fails with an
`ArgumentError` on `"abc"` declared integer; and passes the raw string
through unchanged for every declared type other than `"integer"` and
`"number"`. -/
theorem convert_argument_spec :
    _convert_argument "42" "integer" = .ok (PyValue.vInt 42) ∧
    _convert_argument "3.0" "number" = .ok (PyValue.vInt 3) ∧
    _convert_argument "3.5" "number" = .ok (PyValue.vFloat (7 / 2)) ∧
    isArgumentError (_convert_argument "abc" "integer") = true ∧
    (∀ raw ty : String, ty ≠ "integer" → ty ≠ "number" →
      _convert_argument raw ty = .ok (PyValue.vStr raw)) := by
  have h35 : (7 / 2 : ℚ) = mkRat 7 2 := by
    rw [Rat.mkRat_eq_div]
    norm_num
  refine ⟨by decide, by decide, ?_, by decide, ?_⟩
  · rw [h35]
    decide
  · intro raw ty ht1 ht2
    simp [_convert_argument, ht1, ht2]

/-- Witness for C6's pass-through clause at a concrete unknown type. -/
theorem convert_argument_spec_witness :
    _convert_argument "hello world" "boolean" = .ok (PyValue.vStr "hello world") :=
  convert_argument_spec.2.2.2.2 "hello world" "boolean" (by decide) (by decide)

/-- Helper: first components of a list of pairs built from keys. -/
theorem map_fst_pair {α β : Type} (g : α → β) (l : List α) :
    (l.map (fun n => (n, g n))).map Prod.fst = l := by
  induction l with
  | nil => rfl
  | cons a l ih => simp [ih]

/-- Helper: first components of a rebuilt filtered association list. -/
theorem map_fst_filter_pair {α β γ : Type} (p : α → Bool) (g : α × β → γ)
    (l : List (α × β)) :
    ((l.filter (fun q => p q.1)).map (fun q => (q.1, g q))).map Prod.fst =
      (l.map Prod.fst).filter p := by
  induction l with
  | nil => rfl
  | cons a l ih =>
    by_cases h : p a.1 <;> simp [h, ih]

/-- Helper: in a duplicate-free association list, `find?` on the first
component returns exactly the member with that key. -/
theorem find_fst_of_nodup {β : Type} (l : List (String × β))
    (hnd : (l.map Prod.fst).Nodup) (q : String × β) (hq : q ∈ l) :
    l.find? (fun p => p.1 = q.1) = some q := by
  induction l with
  | nil => simp at hq
  | cons a l ih =>
    simp only [List.map_cons, List.nodup_cons] at hnd
    rcases List.mem_cons.mp hq with rfl | hq'
    · simp
    · have hne : (a.1 = q.1) = False := by
        simp only [eq_iff_iff, iff_false]
        intro he
        exact hnd.1 (he ▸ List.mem_map_of_mem Prod.fst hq')
      rw [List.find?_cons]
      simp only [hne, decide_False]
      exact ih hnd.2 hq'

/-- Helper: a key that occurs in the association list is found by
`lookupProp`. -/
theorem lookupProp_mem_ne_none (props : List (String × Option String))
    (q : String × Option String) (hq : q ∈ props) :
    lookupProp props q.1 ≠ none := by
  simp only [lookupProp, ne_eq, Option.map_eq_none', List.find?_eq_none, not_forall]
  exact ⟨q, hq, by simp⟩

/-- C9: for every tool descriptor with a well-formed `properties` dict,
the extracted schema lists all required parameter names first (in
`required` order) followed by the optional ones (in declaration order),
and any parameter whose `properties` entry declares no type — or that is
missing from `properties` altogether — is assigned type `"string"`. -/
theorem extract_schema_ordered (t : ToolInputSchema)
    (hnd : (t.properties.map Prod.fst).Nodup) :
    ((_extract_schema t).map Prod.fst =
      t.required ++ ((t.properties.map Prod.fst).filter (fun n => !(t.required.contains n)))) ∧
    (∀ p ∈ _extract_schema t, lookupProp t.properties p.1 = some none → p.2 = "string") ∧
    (∀ p ∈ _extract_schema t, lookupProp t.properties p.1 = none → p.2 = "string") := by
  refine ⟨?_, ?_, ?_⟩
  · rw [_extract_schema, List.map_append]
    congr 1
    · exact map_fst_pair _ t.required
    · exact map_fst_filter_pair (fun n => !(t.required.contains n))
        (fun q => q.2.getD "string") t.properties
  · intro p hp hl
    rcases List.mem_append.mp hp with hreq | hopt
    · obtain ⟨n, _, hn⟩ := List.mem_map.mp hreq
      subst hn
      simp only at hl
      rw [hl]
      rfl
    · obtain ⟨q, hqf, hq⟩ := List.mem_map.mp hopt
      have hqmem : q ∈ t.properties := List.mem_of_mem_filter hqf
      have hfind := find_fst_of_nodup t.properties hnd q hqmem
      subst hq
      simp only at hl
      rw [lookupProp, hfind] at hl
      simp only [Option.map_some'] at hl
      rw [Option.some.injEq] at hl
      simp [hl]
  · intro p hp hl
    rcases List.mem_append.mp hp with hreq | hopt
    · obtain ⟨n, _, hn⟩ := List.mem_map.mp hreq
      subst hn
      simp only at hl
      rw [hl]
      rfl
    · obtain ⟨q, hqf, hq⟩ := List.mem_map.mp hopt
      have hqmem : q ∈ t.properties := List.mem_of_mem_filter hqf
      subst hq
      simp only at hl
      exact absurd hl (lookupProp_mem_ne_none t.properties q hqmem)

/-- Witness for C9 at a concrete descriptor: `y` and `x` are required
(in that order), `note` is optional and untyped. -/
theorem extract_schema_ordered_witness :
    (_extract_schema
      ⟨[("x", some "integer"), ("note", none), ("y", some "integer")], ["y", "x"]⟩).map Prod.fst =
      ["y", "x", "note"] :=
  (extract_schema_ordered
    ⟨[("x", some "integer"), ("note", none), ("y", some "integer")], ["y", "x"]⟩ (by decide)).1

/-- Helper: the assignment at position `i` of the coercion loop. -/
theorem buildArguments_get? (schema : List (String × String)) (raws : List String) (i : ℕ) :
    (buildArguments schema raws).get? i =
      (raws.get? i).map
        (fun raw => ((keyTypeAt schema i).1, coerceOne raw (keyTypeAt schema i).2)) := by
  simp only [buildArguments, List.get?_eq_getElem?, List.getElem?_map, List.getElem?_enum]
  cases raws[i]? <;> rfl

/-- C7: an argument-count mismatch does not abort the call — every
supplied raw argument is coerced: positions within the schema use the
declared (name, type) at that position, positions beyond the schema get
the synthesized name `arg<index>` and are kept as untyped text, and the
number of coerced assignments equals the number of raw arguments. -/
theorem coercion_mismatch_tolerant (schema : List (String × String)) (raws : List String) :
    (buildArguments schema raws).length = raws.length ∧
    (∀ i kt raw, schema.get? i = some kt → raws.get? i = some raw →
      (buildArguments schema raws).get? i = some (kt.1, coerceOne raw kt.2)) ∧
    (∀ i raw, schema.length ≤ i → raws.get? i = some raw →
      (buildArguments schema raws).get? i = some ("arg" ++ toString i, PyValue.vStr raw)) := by
  refine ⟨?_, ?_, ?_⟩
  · simp [buildArguments, List.enum_length]
  · intro i kt raw hs hr
    rw [List.get?_eq_getElem?] at hs
    rw [buildArguments_get?, hr]
    simp [keyTypeAt, hs]
  · intro i raw hlen hr
    have hs : schema.get? i = none := List.get?_eq_none.mpr hlen
    rw [List.get?_eq_getElem?] at hs
    rw [buildArguments_get?, hr]
    simp [keyTypeAt, hs, coerceOne, _convert_argument]

/-- Witness for C7: five raw arguments against a two-parameter schema
yield five assignments, the overflow positions named `arg2`..`arg4` and
kept as text. -/
theorem coercion_mismatch_tolerant_witness :
    (buildArguments [("x", "integer"), ("y", "integer")] ["1", "2", "a", "b", "c"]).length = 5 ∧
    (buildArguments [("x", "integer"), ("y", "integer")] ["1", "2", "a", "b", "c"]).get? 2 =
      some ("arg2", PyValue.vStr "a") ∧
    (buildArguments [("x", "integer"), ("y", "integer")] ["1", "2", "a", "b", "c"]).get? 4 =
      some ("arg4", PyValue.vStr "c") :=
  ⟨(coercion_mismatch_tolerant [("x", "integer"), ("y", "integer")]
      ["1", "2", "a", "b", "c"]).1,
    (coercion_mismatch_tolerant [("x", "integer"), ("y", "integer")]
      ["1", "2", "a", "b", "c"]).2.2 2 "a" (by decide) rfl,
    (coercion_mismatch_tolerant [("x", "integer"), ("y", "integer")]
      ["1", "2", "a", "b", "c"]).2.2 4 "c" (by decide) rfl⟩

/-- C8: when one raw argument fails numeric coercion the call is not
aborted: that position gets the original raw string as its value, every
other in-schema position keeps its coerced value, and a parsed
function-call directive always produces a tool invocation. -/
theorem coercion_failure_recovery (schema : List (String × String)) (raws : List String)
    (i : ℕ) (kt : String × String) (raw e : String)
    (hs : schema.get? i = some kt) (hr : raws.get? i = some raw)
    (he : _convert_argument raw kt.2 = .error e) :
    (buildArguments schema raws).get? i = some (kt.1, PyValue.vStr raw) ∧
    (∀ j kt' raw', j ≠ i → schema.get? j = some kt' → raws.get? j = some raw' →
      (buildArguments schema raws).get? j = some (kt'.1, coerceOne raw' kt'.2)) ∧
    (∀ (env : Env) (h : List Turn) (msg nm : String) (args : List String),
      parse_agent_line (pyFirstLine (env.modelReply (h ++ [⟨"user", msg⟩]))) =
        .ok { kind := "function_call", name := some nm, arguments := some args } →
      (runIteration env h msg).2 =
        .toolCall nm (buildArguments (schemaFor env nm) args)
          ("TOOL_RESULT " ++ nm ++ ": " ++
            env.toolResult nm (dictOf (buildArguments (schemaFor env nm) args)))) := by
  refine ⟨?_, ?_, ?_⟩
  · rw [List.get?_eq_getElem?] at hs
    rw [buildArguments_get?, hr]
    simp [keyTypeAt, hs, coerceOne, he]
  · intro j kt' raw' _ hs' hr'
    rw [List.get?_eq_getElem?] at hs'
    rw [buildArguments_get?, hr']
    simp [keyTypeAt, hs']
  · intro env h msg nm args hparse
    simp [runIteration, hparse, show ("function_call" : String) ≠ "final_answer" from by decide]

/-- Witness for C8: `"abc"` fails integer coercion, is passed through as
raw text, and the `add` tool call still proceeds. -/
theorem coercion_failure_recovery_witness :
    (buildArguments [("x", "integer"), ("y", "integer")] ["abc", "2"]).get? 0 =
      some ("x", PyValue.vStr "abc") ∧
    (runIteration badArgEnv [] "go").2 =
      .toolCall "add" (buildArguments (schemaFor badArgEnv "add") ["abc", "2"])
        ("TOOL_RESULT add: " ++
          badArgEnv.toolResult "add" (dictOf (buildArguments (schemaFor badArgEnv "add") ["abc", "2"]))) :=
  ⟨(coercion_failure_recovery [("x", "integer"), ("y", "integer")] ["abc", "2"] 0
      ("x", "integer") "abc" "invalid literal for int() with base 10" rfl rfl rfl).1,
    (coercion_failure_recovery [("x", "integer"), ("y", "integer")] ["abc", "2"] 0
      ("x", "integer") "abc" "invalid literal for int() with base 10" rfl rfl rfl).2.2
      badArgEnv [] "go" "add" ["abc", "2"] rfl⟩

/-- Helper: every loop body execution appends exactly one user turn and
then one model turn to the history, whatever the parse outcome. -/
theorem runIteration_fst (env : Env) (h : List Turn) (msg : String) :
    (runIteration env h msg).1 =
      h ++ [⟨"user", msg⟩,
        ⟨"model", pyFirstLine (env.modelReply (h ++ [⟨"user", msg⟩]))⟩] := by
  cases hp : parse_agent_line (pyFirstLine (env.modelReply (h ++ [⟨"user", msg⟩]))) with
  | error e => simp [runIteration, hp]
  | ok d => by_cases hk : d.kind = "final_answer" <;> simp [runIteration, hp, hk]

/-- Helper: the result of one loop body execution, as a pair, when the
line parses to a protocol error. -/
theorem runIteration_eq_of_error (env : Env) (h : List Turn) (msg e : String)
    (hp : parse_agent_line (pyFirstLine (env.modelReply (h ++ [⟨"user", msg⟩]))) = .error e) :
    runIteration env h msg =
      ((runIteration env h msg).1, .protocolError (protocolFeedback e)) := by
  have hsnd : (runIteration env h msg).2 = .protocolError (protocolFeedback e) := by
    simp [runIteration, hp]
  rw [← hsnd]

/-- C1: whenever the model's line is rejected by the directive parser,
the loop body does not raise: its outcome is a protocol-error feedback
message whose text contains the word "protocol", no tool is invoked that
iteration, and the loop continues with that feedback as the next outbound
user message. -/
theorem protocol_error_recovery (env : Env) (h : List Turn) (msg e : String)
    (hp : parse_agent_line (pyFirstLine (env.modelReply (h ++ [⟨"user", msg⟩]))) = .error e) :
    (runIteration env h msg).2 = .protocolError (protocolFeedback e) ∧
    "protocol".data <:+: (protocolFeedback e).data ∧
    (∀ nm args fb, (runIteration env h msg).2 ≠ .toolCall nm args fb) ∧
    (∀ n : ℕ, runLoop env (n + 1) h msg =
      ⟨(runLoop env n (runIteration env h msg).1 (protocolFeedback e)).state,
        .protocolError (protocolFeedback e) ::
          (runLoop env n (runIteration env h msg).1 (protocolFeedback e)).outcomes,
        (runLoop env n (runIteration env h msg).1 (protocolFeedback e)).history⟩) := by
  have hsnd : (runIteration env h msg).2 = .protocolError (protocolFeedback e) := by
    simp [runIteration, hp]
  refine ⟨hsnd, ?_, ?_, ?_⟩
  · obtain ⟨s, t, hst⟩ :=
      (by decide : "protocol".data <:+: "). Please follow the protocol.".data)
    refine ⟨("Unrecognized response (" ++ e).data ++ s, t, ?_⟩
    have hdata : (protocolFeedback e).data =
        ("Unrecognized response (" ++ e).data ++ "). Please follow the protocol.".data := by
      rw [protocolFeedback, String.data_append]
    rw [hdata, ← hst]
    simp [List.append_assoc]
  · intro nm args fb hcontra
    rw [hsnd] at hcontra
    exact IterOutcome.noConfusion hcontra
  · intro n
    have hpair := runIteration_eq_of_error env h msg e hp
    conv_lhs => rw [runLoop, hpair]

/-- Witness for C1: a model that answers `"SAY: hello"` triggers the
protocol-error outcome. -/
theorem protocol_error_recovery_witness :
    (runIteration offProtocolEnv [] "go").2 =
      .protocolError (protocolFeedback "Unrecognized agent directive: SAY: hello") :=
  (protocol_error_recovery offProtocolEnv [] "go"
    "Unrecognized agent directive: SAY: hello" rfl).1

/-- Helper: the loop invariant — the number of executed iterations never
exceeds the fuel; the run ends `EXHAUSTED` exactly when all fuel was used
without a final answer; and the run ends `DONE` exactly when the trace is
some final-answer-free prefix followed by the final answer. -/
theorem runLoop_inv (env : Env) :
    ∀ (n : ℕ) (h : List Turn) (msg : String),
      (runLoop env n h msg).outcomes.length ≤ n ∧
      ((runLoop env n h msg).state = .EXHAUSTED ↔
        ((runLoop env n h msg).outcomes.length = n ∧
          IterOutcome.finalAnswer ∉ (runLoop env n h msg).outcomes)) ∧
      ((runLoop env n h msg).state = .DONE ↔
        ∃ pre, (runLoop env n h msg).outcomes = pre ++ [IterOutcome.finalAnswer] ∧
          IterOutcome.finalAnswer ∉ pre) := by
  intro n
  induction n with
  | zero =>
    intro h msg
    refine ⟨Nat.le_refl 0, ?_, ?_⟩ <;> simp [runLoop]
  | succ n ih =>
    intro h msg
    cases hit : runIteration env h msg with
    | mk h2 out =>
      cases out with
      | finalAnswer =>
        refine ⟨?_, ?_, ?_⟩
        · simp [runLoop, hit]
        · simp [runLoop, hit]
        · simp only [runLoop, hit]
          constructor
          · intro _
            exact ⟨[], by simp⟩
          · intro _
            trivial
      | protocolError fb =>
        obtain ⟨ih1, ih2, ih3⟩ := ih h2 fb
        refine ⟨?_, ?_, ?_⟩
        · simp only [runLoop, hit, List.length_cons]
          exact Nat.succ_le_succ ih1
        · simp only [runLoop, hit, List.length_cons, List.mem_cons]
          rw [ih2]
          constructor
          · rintro ⟨hl, hm⟩
            exact ⟨by omega, by rintro (hc | hc) <;> simp_all⟩
          · rintro ⟨hl, hm⟩
            exact ⟨by omega, fun hc => hm (Or.inr hc)⟩
        · simp only [runLoop, hit]
          rw [ih3]
          constructor
          · rintro ⟨pre, hpre, hnot⟩
            exact ⟨.protocolError fb :: pre, by simp [hpre], by simpa using hnot⟩
          · rintro ⟨pre, hpre, hnot⟩
            cases pre with
            | nil => simp at hpre
            | cons a pre' =>
              simp only [List.cons_append, List.cons.injEq] at hpre
              refine ⟨pre', hpre.2, ?_⟩
              intro hc
              exact hnot (by simp [hpre.1, hc])
      | toolCall nm args fb =>
        obtain ⟨ih1, ih2, ih3⟩ := ih h2 fb
        refine ⟨?_, ?_, ?_⟩
        · simp only [runLoop, hit, List.length_cons]
          exact Nat.succ_le_succ ih1
        · simp only [runLoop, hit, List.length_cons, List.mem_cons]
          rw [ih2]
          constructor
          · rintro ⟨hl, hm⟩
            exact ⟨by omega, by rintro (hc | hc) <;> simp_all⟩
          · rintro ⟨hl, hm⟩
            exact ⟨by omega, fun hc => hm (Or.inr hc)⟩
        · simp only [runLoop, hit]
          rw [ih3]
          constructor
          · rintro ⟨pre, hpre, hnot⟩
            exact ⟨.toolCall nm args fb :: pre, by simp [hpre], by simpa using hnot⟩
          · rintro ⟨pre, hpre, hnot⟩
            cases pre with
            | nil => simp at hpre
            | cons a pre' =>
              simp only [List.cons_append, List.cons.injEq] at hpre
              refine ⟨pre', hpre.2, ?_⟩
              intro hc
              exact hnot (by simp [hpre.1, hc])

/-- C2: for every iteration cap `N ≥ 1` the loop executes at most `N`
iterations; it ends in the reported `EXHAUSTED` terminal state exactly
when all `N` iterations ran without a final-answer directive; and it ends
in `DONE` exactly when the final-answer directive was parsed on the last
executed iteration (final answers never occur earlier in the trace). -/
theorem loop_termination (env : Env) (query : String) (N : ℕ) (_hN : 1 ≤ N) :
    (run_agent env query N).outcomes.length ≤ N ∧
    ((run_agent env query N).state = .EXHAUSTED ↔
      ((run_agent env query N).outcomes.length = N ∧
        IterOutcome.finalAnswer ∉ (run_agent env query N).outcomes)) ∧
    ((run_agent env query N).state = .DONE ↔
      ∃ pre, (run_agent env query N).outcomes = pre ++ [IterOutcome.finalAnswer] ∧
        IterOutcome.finalAnswer ∉ pre) ∧
    ((run_agent env query N).state = .DONE ∨ (run_agent env query N).state = .EXHAUSTED) := by
  obtain ⟨h1, h2, h3⟩ := runLoop_inv env N [] query
  exact ⟨h1, h2, h3, by cases (run_agent env query N).state <;> simp⟩

/-- Witness for C2 at cap 3 with a model that never emits a final
answer (spec scenario D). -/
theorem loop_termination_witness :
    (run_agent offProtocolEnv "solve" 3).outcomes.length ≤ 3 :=
  (loop_termination offProtocolEnv "solve" 3 (by decide)).1

/-- Helper: history entries are never modified or removed by the loop. -/
theorem runLoop_history_prefix (env : Env) :
    ∀ (n : ℕ) (h : List Turn) (msg : String), h <+: (runLoop env n h msg).history := by
  intro n
  induction n with
  | zero =>
    intro h msg
    exact List.prefix_refl h
  | succ n ih =>
    intro h msg
    have hfst := runIteration_fst env h msg
    cases hit : runIteration env h msg with
    | mk h2 out =>
      rw [hit] at hfst
      simp only at hfst
      have hpre : h <+: h2 := by
        rw [hfst]
        exact List.prefix_append h _
      cases out with
      | finalAnswer =>
        simpa [runLoop, hit] using hpre
      | protocolError fb =>
        simpa [runLoop, hit] using hpre.trans (ih h2 fb)
      | toolCall nm args fb =>
        simpa [runLoop, hit] using hpre.trans (ih h2 fb)

/-- Helper: each executed iteration contributes exactly two history
entries. -/
theorem runLoop_history_length (env : Env) :
    ∀ (n : ℕ) (h : List Turn) (msg : String),
      (runLoop env n h msg).history.length =
        h.length + 2 * (runLoop env n h msg).outcomes.length := by
  intro n
  induction n with
  | zero =>
    intro h msg
    simp [runLoop]
  | succ n ih =>
    intro h msg
    have hfst := runIteration_fst env h msg
    cases hit : runIteration env h msg with
    | mk h2 out =>
      rw [hit] at hfst
      simp only at hfst
      have hlen : h2.length = h.length + 2 := by
        rw [hfst]
        simp
      cases out with
      | finalAnswer =>
        simp [runLoop, hit, hlen]
      | protocolError fb =>
        simp only [runLoop, hit, List.length_cons]
        rw [ih h2 fb, hlen]
        ring
      | toolCall nm args fb =>
        simp only [runLoop, hit, List.length_cons]
        rw [ih h2 fb, hlen]
        ring

/-- C10: every loop body execution appends exactly one user-role entry
and then exactly one model-role entry (the model turn is appended even on
a protocol error and even when the extracted reply is empty), existing
history is only ever extended, and after `k` executed iterations the
history holds exactly `2 * k` entries. -/
theorem history_discipline (env : Env) :
    (∀ (h : List Turn) (msg : String), (runIteration env h msg).1 =
      h ++ [⟨"user", msg⟩,
        ⟨"model", pyFirstLine (env.modelReply (h ++ [⟨"user", msg⟩]))⟩]) ∧
    (∀ (n : ℕ) (h : List Turn) (msg : String), h <+: (runLoop env n h msg).history) ∧
    (∀ (query : String) (N : ℕ),
      (run_agent env query N).history.length =
        2 * (run_agent env query N).outcomes.length) := by
  refine ⟨runIteration_fst env, runLoop_history_prefix env, ?_⟩
  intro query N
  have hl := runLoop_history_length env N [] query
  simpa [run_agent] using hl

end Talk2MCP
